import Mathlib

/-!
Shallow embedding of the acquisition-control subsystem implemented in
`src/pymodaq/control_modules/daq_viewer.py`: the hardware worker
(`DAQ_Detector`) with its software-averaging state machine and polling grab
loop, and the controller (`DAQ_Viewer`) with its aggregation, background and
overshoot pipeline.

Numeric payloads are modelled over the rationals (`ℚ`): the Python code
operates on numpy arrays elementwise, and the incremental-mean algebra is the
object of study.  A numpy array is modelled as `List ℚ` (arithmetic lifted
elementwise), the `data` attribute of one `DataFromPlugins` item as
`List (List ℚ)`.
-/

namespace DaqViewer

/-- One `DataFromPlugins` item as emitted by a detector plugin: a named group
of (elementwise-modelled) arrays.  Only the fields the embedded code reads or
writes are kept (`name`, `origin`, `data`); purely presentational fields
(axis metadata, dim label, ...) are dropped. -/
structure DataFromPlugins where
  name : String
  origin : String
  data : List (List ℚ)
  deriving Repr, DecidableEq

/-- A batch: the list of `DataFromPlugins` items delivered by one hardware
callback (`data_grabed_signal`). -/
abbrev Batch := List DataFromPlugins

/-- numpy elementwise `a + b` on two same-shape arrays. -/
def arrAdd (a b : List ℚ) : List ℚ := List.zipWith (· + ·) a b

/-- numpy elementwise `a - b`. -/
def arrSub (a b : List ℚ) : List ℚ := List.zipWith (· - ·) a b

/-- numpy elementwise `a / n`. -/
def arrDiv (n : ℚ) (a : List ℚ) : List ℚ := a.map (· / n)

/-- The elementwise incremental-mean step used by `DAQ_Detector.data_ready`:
`((n - 1) * old + sample) / n` on one array. -/
def arrIncMean (n : ℕ) (old sample : List ℚ) : List ℚ :=
  List.zipWith (fun o x => (((n : ℚ) - 1) * o + x) / (n : ℚ)) old sample

/-- `data_ready`'s update of one stored `DataFromPlugins` item against the
matching incoming item: every array in `data` is replaced by the
incremental-mean step; the other fields keep the stored item's values
(the Python code assigns only `self.datas[i]['data']`). -/
def panelIncMean (n : ℕ) (old sample : DataFromPlugins) : DataFromPlugins :=
  { old with data := List.zipWith (arrIncMean n) old.data sample.data }

/-- `data_ready`'s software-averaging update of the whole stored batch:
`self.datas[i]['data'] = [((n-1)*old[j] + new[j])/n for j in range(...)]`.
Under matching shapes (the only case where the Python index loops do not
raise) the loops coincide with `zipWith`. -/
def batchIncMean (n : ℕ) (old sample : Batch) : Batch :=
  List.zipWith (panelIncMean n) old sample

/-- Elementwise sum of two same-shape items (names from the left). -/
def panelAdd (p q : DataFromPlugins) : DataFromPlugins :=
  { p with data := List.zipWith arrAdd p.data q.data }

/-- Elementwise sum of two same-shape batches. -/
def batchAdd (b c : Batch) : Batch := List.zipWith panelAdd b c

/-- Divide every array element of an item by `n`. -/
def panelDiv (n : ℚ) (p : DataFromPlugins) : DataFromPlugins :=
  { p with data := p.data.map (arrDiv n) }

/-- Divide every element of a batch by `n`. -/
def batchDiv (n : ℚ) (b : Batch) : Batch := b.map (panelDiv n)

/-- Elementwise sum of a list of batches (empty list gives the empty batch;
names and origins flow from the first batch). -/
def batchSum : List Batch → Batch
  | [] => []
  | b :: rest => rest.foldl batchAdd b

/-- The exact elementwise arithmetic mean of a list of batches. -/
def batchMean (l : List Batch) : Batch := batchDiv (l.length : ℚ) (batchSum l)

/-- The nested shape (number of items, arrays per item, length per array is
abstracted to array count here refined below) of one item. -/
def panelShape (p : DataFromPlugins) : List ℕ := p.data.map List.length

/-- The nested shape of a batch: per item, the lengths of its arrays. -/
def batchShape (b : Batch) : List (List ℕ) := b.map panelShape

namespace DAQ_Detector

/-- The attributes of `DAQ_Detector` driving the grab / averaging state
machine (`DAQ_Detector.__init__`).  `live_mode_available` is the attached
driver's capability flag, fixed for the life of the worker. -/
structure WorkerState where
  grab_state : Bool := false
  single_grab : Bool := false
  waiting_for_data : Bool := false
  datas : Option Batch := none
  ind_average : ℕ := 0
  Naverage : ℕ := 1
  average_done : Bool := false
  hardware_averaging : Bool := false
  show_averaging : Bool := false
  live_mode_available : Bool := false
  deriving Repr, DecidableEq

/-- Result of one `data_ready` call: the new worker state, the batches
emitted on `data_detector_sig` and those emitted on
`data_detector_temp_sig`. -/
structure DataReadyResult where
  state : WorkerState
  emitted : List Batch
  emittedTemp : List Batch
  deriving Repr, DecidableEq

/-- `DAQ_Detector.data_ready`.  The initial back-compatibility loop only
renames a dict key (`'type'` → `'dim'`) on legacy payloads and is not
modelled.  In the software branch the stored batch starts as the first
sample, is updated by the incremental mean afterwards, and is emitted with
`average_done = True` and `ind_average = 0` once `ind_average` reaches
`Naverage`; the hardware branch forwards immediately.  In both branches
`waiting_for_data` is cleared afterwards (the defensive `detector.stop()` on
a cleared `grab_state` is tracked by the loop wrapper below). -/
def data_ready (s : WorkerState) (datas : Batch) : DataReadyResult :=
  if ¬ s.hardware_averaging then
    let n := s.ind_average + 1
    let d : Batch := if n = 1 then datas else batchIncMean n (s.datas.getD []) datas
    let temp : List Batch := if n ≠ 1 ∧ s.show_averaging then [d] else []
    if n = s.Naverage then
      { state := { s with ind_average := 0, datas := some d, average_done := true,
                          waiting_for_data := false },
        emitted := [d], emittedTemp := temp }
    else
      { state := { s with ind_average := n, datas := some d, waiting_for_data := false },
        emitted := [], emittedTemp := temp }
  else
    { state := { s with waiting_for_data := false }, emitted := [datas], emittedTemp := [] }

/-- Feed a list of samples through successive `data_ready` calls, collecting
the batches emitted on `data_detector_sig`. -/
def runDataReady (s : WorkerState) : List Batch → WorkerState × List Batch
  | [] => (s, [])
  | b :: rest =>
    let r := data_ready s b
    let t := runDataReady r.state rest
    (t.1, r.emitted ++ t.2)

end DAQ_Detector

lemma arrIncMean_div (j : ℕ) (hj : 1 ≤ j) (a x : List ℚ) :
    arrIncMean (j + 1) (arrDiv (j : ℚ) a) x = arrDiv ((j : ℚ) + 1) (arrAdd a x) := by
  induction a generalizing x with
  | nil => cases x <;> simp [arrIncMean, arrDiv, arrAdd]
  | cons o t ih =>
    cases x with
    | nil => simp [arrIncMean, arrDiv, arrAdd]
    | cons y ys =>
      simp only [arrIncMean, arrDiv, arrAdd, List.map_cons, List.zipWith_cons_cons,
        List.cons.injEq] at ih ⊢
      refine ⟨?_, ih ys⟩
      have hj0 : (j : ℚ) ≠ 0 := Nat.cast_ne_zero.mpr (by omega)
      have hj1 : (j : ℚ) + 1 ≠ 0 := by positivity
      push_cast
      field_simp

lemma dataIncMean_div (j : ℕ) (hj : 1 ≤ j) (d e : List (List ℚ)) :
    List.zipWith (arrIncMean (j + 1)) (d.map (arrDiv (j : ℚ))) e =
      (List.zipWith arrAdd d e).map (arrDiv ((j : ℚ) + 1)) := by
  induction d generalizing e with
  | nil => cases e <;> simp
  | cons a t ih =>
    cases e with
    | nil => simp
    | cons b eb =>
      simp only [List.map_cons, List.zipWith_cons_cons, List.cons.injEq]
      exact ⟨arrIncMean_div j hj a b, ih eb⟩

lemma panelIncMean_div (j : ℕ) (hj : 1 ≤ j) (p x : DataFromPlugins) :
    panelIncMean (j + 1) (panelDiv (j : ℚ) p) x = panelDiv ((j : ℚ) + 1) (panelAdd p x) := by
  simp [panelIncMean, panelDiv, panelAdd, dataIncMean_div j hj]

lemma batchIncMean_div (j : ℕ) (hj : 1 ≤ j) (b c : Batch) :
    batchIncMean (j + 1) (batchDiv (j : ℚ) b) c = batchDiv ((j : ℚ) + 1) (batchAdd b c) := by
  induction b generalizing c with
  | nil => cases c <;> simp [batchIncMean, batchDiv, batchAdd]
  | cons p t ih =>
    cases c with
    | nil => simp [batchIncMean, batchDiv, batchAdd]
    | cons q cq =>
      simp only [batchIncMean, batchDiv, batchAdd, List.map_cons, List.zipWith_cons_cons,
        List.cons.injEq] at ih ⊢
      exact ⟨panelIncMean_div j hj p q, ih cq⟩

lemma arrDiv_one_fun : arrDiv (1 : ℚ) = fun a => a :=
  funext fun a => by simp [arrDiv]

lemma panelDiv_one_fun : panelDiv (1 : ℚ) = fun p => p := by
  funext p
  cases p with
  | mk n o d => simp [panelDiv, arrDiv_one_fun]

lemma batchDiv_one (b : Batch) : batchDiv 1 b = b := by
  simp [batchDiv, panelDiv_one_fun]

namespace DAQ_Detector

lemma data_ready_first (s : WorkerState) (b : Batch)
    (h1 : s.hardware_averaging = false) (h2 : s.ind_average = 0)
    (hN : s.Naverage ≠ 1) :
    data_ready s b =
      { state := { s with ind_average := 1, datas := some b, waiting_for_data := false },
        emitted := [], emittedTemp := [] } := by
  simp [data_ready, h1, h2, hN, Ne.symm hN]

lemma data_ready_first_single (s : WorkerState) (b : Batch)
    (h1 : s.hardware_averaging = false) (h2 : s.ind_average = 0)
    (hN : s.Naverage = 1) :
    data_ready s b =
      { state := { s with ind_average := 0, datas := some b, average_done := true,
                          waiting_for_data := false },
        emitted := [b], emittedTemp := [] } := by
  simp [data_ready, h1, h2, hN]

lemma data_ready_mid (s : WorkerState) (b : Batch) (j : ℕ) (S : Batch)
    (h1 : s.hardware_averaging = false) (h2 : s.ind_average = j) (h3 : 1 ≤ j)
    (h4 : s.datas = some (batchDiv (j : ℚ) S)) (h5 : j + 1 ≠ s.Naverage) :
    data_ready s b =
      { state := { s with ind_average := j + 1,
                          datas := some (batchDiv ((j : ℚ) + 1) (batchAdd S b)),
                          waiting_for_data := false },
        emitted := [],
        emittedTemp := if s.show_averaging
          then [batchDiv ((j : ℚ) + 1) (batchAdd S b)] else [] } := by
  have hn1 : j + 1 ≠ 1 := by omega
  simp [data_ready, h1, h2, h4, hn1, h5, batchIncMean_div j h3, hn1]

lemma data_ready_last (s : WorkerState) (b : Batch) (j : ℕ) (S : Batch)
    (h1 : s.hardware_averaging = false) (h2 : s.ind_average = j) (h3 : 1 ≤ j)
    (h4 : s.datas = some (batchDiv (j : ℚ) S)) (h5 : j + 1 = s.Naverage) :
    data_ready s b =
      { state := { s with ind_average := 0,
                          datas := some (batchDiv ((j : ℚ) + 1) (batchAdd S b)),
                          average_done := true, waiting_for_data := false },
        emitted := [batchDiv ((j : ℚ) + 1) (batchAdd S b)],
        emittedTemp := if s.show_averaging
          then [batchDiv ((j : ℚ) + 1) (batchAdd S b)] else [] } := by
  have hn1 : j + 1 ≠ 1 := by omega
  simp [data_ready, h1, h2, h4, hn1, ← h5, batchIncMean_div j h3]

lemma runDataReady_mid (l : List Batch) :
    ∀ (s : WorkerState) (j : ℕ) (S : Batch),
      s.hardware_averaging = false → s.ind_average = j → 1 ≤ j →
      s.datas = some (batchDiv (j : ℚ) S) → j + l.length < s.Naverage →
      (runDataReady s l).2 = [] ∧
      (runDataReady s l).1.ind_average = j + l.length ∧
      (runDataReady s l).1.datas =
        some (batchDiv ((j : ℚ) + (l.length : ℚ)) (l.foldl batchAdd S)) ∧
      (runDataReady s l).1.hardware_averaging = false ∧
      (runDataReady s l).1.Naverage = s.Naverage ∧
      (runDataReady s l).1.average_done = s.average_done := by
  induction l with
  | nil =>
    intro s j S h1 h2 h3 h4 h5
    simpa [runDataReady, h1, h2] using h4
  | cons b rest ih =>
    intro s j S h1 h2 h3 h4 h5
    have h5' : j + 1 ≠ s.Naverage := by simp at h5; omega
    have hd := data_ready_mid s b j S h1 h2 h3 h4 h5'
    have hrec := ih { s with ind_average := j + 1,
                             datas := some (batchDiv ((j : ℚ) + 1) (batchAdd S b)),
                             waiting_for_data := false }
      (j + 1) (batchAdd S b) h1 rfl (by omega)
      (by push_cast; ring_nf) (by simp at h5 ⊢; omega)
    simp only [runDataReady, hd] at *
    refine ⟨by simpa using hrec.1, ?_, ?_, hrec.2.2.2⟩
    · have := hrec.2.1
      simp only [List.length_cons] at *
      omega
    · have := hrec.2.2.1
      simp only [List.length_cons, List.foldl_cons] at *
      rw [this]
      congr 2
      push_cast
      ring

lemma runDataReady_to_end (l : List Batch) :
    ∀ (s : WorkerState) (j : ℕ) (S : Batch),
      s.hardware_averaging = false → s.ind_average = j → 1 ≤ j →
      s.datas = some (batchDiv (j : ℚ) S) → j + l.length = s.Naverage → l ≠ [] →
      (runDataReady s l).2 = [batchDiv (s.Naverage : ℚ) (l.foldl batchAdd S)] ∧
      (runDataReady s l).1.ind_average = 0 ∧
      (runDataReady s l).1.average_done = true := by
  induction l with
  | nil => intro s j S _ _ _ _ _ hne; exact absurd rfl hne
  | cons b rest ih =>
    intro s j S h1 h2 h3 h4 h5 _
    cases rest with
    | nil =>
      have h5' : j + 1 = s.Naverage := by simpa using h5
      have hd := data_ready_last s b j S h1 h2 h3 h4 h5'
      have hc : ((s.Naverage : ℚ)) = (j : ℚ) + 1 := by rw [← h5']; push_cast; ring
      simp [runDataReady, hd, hc]
    | cons c cs =>
      have h5' : j + 1 ≠ s.Naverage := by simp at h5; omega
      have hd := data_ready_mid s b j S h1 h2 h3 h4 h5'
      have hrec := ih { s with ind_average := j + 1,
                               datas := some (batchDiv ((j : ℚ) + 1) (batchAdd S b)),
                               waiting_for_data := false }
        (j + 1) (batchAdd S b) h1 rfl (by omega)
        (by push_cast; ring_nf) (by simp at h5 ⊢; omega) (by simp)
      simp only [runDataReady, hd, List.foldl_cons] at *
      exact ⟨by simpa using hrec.1, hrec.2.1, hrec.2.2⟩

/-- **C1.** Software averaging in `DAQ_Detector.data_ready` (worker side,
`hardware_averaging = False`): starting a cycle (`ind_average = 0`) with
averaging target `Naverage = N ≥ 1` and feeding exactly `N` samples of a
common shape, the worker emits on `data_detector_sig` exactly one batch,
equal to the exact elementwise arithmetic mean of the `N` samples, only upon
the `N`-th sample (every proper prefix emits nothing), leaving
`ind_average = 0` and `average_done = True` immediately afterwards.  The
shape hypothesis marks the domain on which the Python index loops coincide
with the embedding's `zipWith`. -/
theorem C1_software_averaging_exact_mean
    (N : ℕ) (hN : 1 ≤ N) (s : WorkerState)
    (hha : s.hardware_averaging = false)
    (hind : s.ind_average = 0) (hNav : s.Naverage = N)
    (samples : List Batch) (hlen : samples.length = N)
    (hshape : ∀ b ∈ samples, batchShape b = batchShape (batchSum samples)) :
    (runDataReady s samples).2 = [batchMean samples] ∧
    (runDataReady s samples).1.ind_average = 0 ∧
    (runDataReady s samples).1.average_done = true ∧
    ∀ k, k < N → (runDataReady s (samples.take k)).2 = [] := by
  cases samples with
  | nil => simp at hlen; omega
  | cons b rest =>
    have hrl : rest.length = N - 1 := by simp at hlen; omega
    have hpre : ∀ k, k < N → (runDataReady s ((b :: rest).take k)).2 = [] := by
      intro k hk
      cases k with
      | zero => simp [runDataReady]
      | succ m =>
        have hNe : s.Naverage ≠ 1 := by omega
        have hd := data_ready_first s b hha hind hNe
        have hmid := runDataReady_mid (rest.take m)
          { s with ind_average := 1, datas := some b, waiting_for_data := false }
          1 b hha rfl le_rfl (by simp [batchDiv_one])
          (by simp; omega)
        simp only [List.take_succ_cons, runDataReady, hd]
        simpa using hmid.1
    by_cases hN1 : N = 1
    · subst hN1
      have hr0 : rest = [] := List.length_eq_zero.mp (by omega)
      subst hr0
      have hd := data_ready_first_single s b hha hind hNav
      refine ⟨?_, ?_, ?_, hpre⟩ <;>
        simp [runDataReady, hd, batchMean, batchSum, batchDiv_one]
    · have hNe : s.Naverage ≠ 1 := by omega
      have hd := data_ready_first s b hha hind hNe
      have hend := runDataReady_to_end rest
        { s with ind_average := 1, datas := some b, waiting_for_data := false }
        1 b hha rfl le_rfl (by simp [batchDiv_one]) (by simp; omega)
        (by intro h; rw [h] at hrl; simp at hrl; omega)
      refine ⟨?_, ?_, ?_, hpre⟩ <;> simp only [runDataReady, hd]
      · simpa [batchMean, batchSum, hNav, hlen] using hend.1
      · exact hend.2.1
      · exact hend.2.2

/-- Concrete worker used by the `C1` witness: software averaging with
target 3 (spec Scenario A). -/
def wC1 : WorkerState :=
  { grab_state := true, Naverage := 3 }

/-- One-channel sample with three array elements all equal to `v`. -/
def sampleA (v : ℚ) : Batch := [{ name := "CH0", origin := "det", data := [[v, v, v]] }]

/-- Witness for `C1` at spec Scenario A: samples `[1,1,1]`, `[2,2,2]`,
`[3,3,3]` with `Naverage = 3` yield exactly one emission, the exact mean
`[2,2,2]`, and the two-sample prefix emits nothing. -/
theorem C1_software_averaging_exact_mean_witness :
    (runDataReady wC1 [sampleA 1, sampleA 2, sampleA 3]).2 =
      [batchMean [sampleA 1, sampleA 2, sampleA 3]] ∧
    batchMean [sampleA 1, sampleA 2, sampleA 3] =
      [{ name := "CH0", origin := "det", data := [[2, 2, 2]] }] ∧
    (runDataReady wC1 [sampleA 1, sampleA 2]).2 = [] ∧
    (runDataReady wC1 [sampleA 1, sampleA 2, sampleA 3]).1.ind_average = 0 := by
  have h := C1_software_averaging_exact_mean 3 (by norm_num) wC1 rfl rfl rfl
    [sampleA 1, sampleA 2, sampleA 3] rfl (by decide)
  refine ⟨h.1, ?_, ?_, h.2.1⟩
  · simp [batchMean, batchSum, batchDiv, batchAdd, panelDiv, panelAdd, arrDiv, arrAdd, sampleA]
    norm_num
  simpa using h.2.2.2 2 (by norm_num)

/-- Messages that can reach the worker while the polling loop of
`DAQ_Detector.grab_data` pumps its queue via
`QtWidgets.QApplication.processEvents()`: a completed hardware acquisition
delivered to `data_ready`, or a `stop_grab` / `stop_all` command dispatched
by `queue_command`.  (`grab` / `single` would re-enter `grab_data` itself and
are outside the modelled loop; the remaining commands do not touch the loop
state.) -/
inductive WorkerEvent
  | dataReady (b : Batch)
  | stop_grab
  | stop_all
  deriving Repr, DecidableEq

/-- Observable atomic actions of one loop execution. -/
inductive WorkerAction
  | issue          -- `waiting_for_data = True` then `detector.grab_data(...)`
  | complete       -- a `data_ready` callback ran (it clears `waiting_for_data`)
  | stopProcessed  -- `queue_command` handled `stop_grab`/`stop_all`: `grab_state = False`
  | driverStop     -- `detector.stop()`
  deriving Repr, DecidableEq

/-- Deliver one queued message to the worker: the stop commands through
`queue_command`, a completed acquisition through the
`data_grabed_signal` → `data_ready` connection (including `data_ready`'s
defensive `detector.stop()` when `grab_state` is already cleared). -/
def applyEvent (s : WorkerState) (e : WorkerEvent) :
    WorkerState × List WorkerAction × List Batch :=
  match e with
  | WorkerEvent.dataReady b =>
    let r := data_ready s b
    (r.state,
      WorkerAction.complete ::
        (if r.state.grab_state then [] else [WorkerAction.driverStop]),
      r.emitted)
  | WorkerEvent.stop_grab =>
    ({ s with grab_state := false }, [WorkerAction.stopProcessed], [])
  | WorkerEvent.stop_all =>
    ({ s with grab_state := false },
      [WorkerAction.stopProcessed, WorkerAction.driverStop], [])

/-- Drain a list of queued messages (`QApplication.processEvents`). -/
def processEvents (s : WorkerState) :
    List WorkerEvent → WorkerState × List WorkerAction × List Batch
  | [] => (s, [], [])
  | e :: rest =>
    let r := applyEvent s e
    let t := processEvents r.1 rest
    (t.1, r.2.1 ++ t.2.1, r.2.2 ++ t.2.2)

/-- One iteration of the `while True` polling loop of `DAQ_Detector.grab_data`:
issue one hardware request if none is outstanding
(`if not self.waiting_for_data`), pump the event queue, then evaluate the
`break` conditions in source order (single-grab completion, cleared
`grab_state`, native streaming).  Returns the resulting state, the action
trace, the emitted batches and whether the loop breaks. -/
def loopIter (s : WorkerState) (evs : List WorkerEvent) :
    WorkerState × List WorkerAction × List Batch × Bool :=
  let s1 := if ¬ s.waiting_for_data then { s with waiting_for_data := true } else s
  let a1 : List WorkerAction :=
    if ¬ s.waiting_for_data then [WorkerAction.issue] else []
  let t := processEvents s1 evs
  let brk := (t.1.single_grab && (t.1.hardware_averaging || t.1.average_done)) ||
    !t.1.grab_state || t.1.live_mode_available
  (t.1, a1 ++ t.2.1, t.2.2, brk)

/-- Run the polling loop over a schedule (one event list per iteration); the
loop stops at the first iteration whose `break` condition fires, or when the
schedule is exhausted (the trace is then a prefix of a longer run). -/
def runLoop (s : WorkerState) :
    List (List WorkerEvent) → WorkerState × List WorkerAction × List Batch
  | [] => (s, [], [])
  | evs :: rest =>
    let r := loopIter s evs
    if r.2.2.2 then (r.1, r.2.1, r.2.2.1)
    else
      let t := runLoop r.1 rest
      (t.1, r.2.1 ++ t.2.1, r.2.2.1 ++ t.2.2)

/-- `DAQ_Detector.grab_data` (worker side): reset the averaging counters
(`ind_average = 0`, the new `Naverage`, `average_done = False` when
`Naverage > 1`), clear `waiting_for_data`, then run the polling loop.  The
`'grab'` / `'grab_stopped'` status messages and the wait-time handling do
not affect the modelled state. -/
def grab_data (s : WorkerState) (Naverage : ℕ) (sched : List (List WorkerEvent)) :
    WorkerState × List WorkerAction × List Batch :=
  runLoop { s with ind_average := 0, Naverage := Naverage,
                   average_done := if 1 < Naverage then false else s.average_done,
                   waiting_for_data := false } sched

/-- Number of hardware requests issued in an action trace. -/
def countIssue (l : List WorkerAction) : ℕ :=
  l.countP (fun a => decide (a = WorkerAction.issue))

/-- Number of completed `data_ready` callbacks in an action trace. -/
def countComplete (l : List WorkerAction) : ℕ :=
  l.countP (fun a => decide (a = WorkerAction.complete))

/-- 1 when no hardware request is outstanding, 0 when one is. -/
def slack (s : WorkerState) : ℕ := if s.waiting_for_data then 0 else 1

lemma data_ready_waiting (s : WorkerState) (b : Batch) :
    (data_ready s b).state.waiting_for_data = false := by
  simp only [data_ready]
  split_ifs <;> rfl

lemma data_ready_grab_state (s : WorkerState) (b : Batch) :
    (data_ready s b).state.grab_state = s.grab_state := by
  simp only [data_ready]
  split_ifs <;> rfl

lemma applyEvent_noIssue (s : WorkerState) (e : WorkerEvent) :
    countIssue (applyEvent s e).2.1 = 0 := by
  cases e <;> simp [applyEvent, countIssue] <;> split_ifs <;> simp

lemma applyEvent_slack (s : WorkerState) (e : WorkerEvent) :
    slack (applyEvent s e).1 ≤ countComplete (applyEvent s e).2.1 + slack s := by
  cases e with
  | dataReady b =>
    simp only [applyEvent, countComplete, slack, data_ready_waiting]
    split_ifs <;> simp <;> omega
  | stop_grab => simp [applyEvent, countComplete, slack]
  | stop_all => simp [applyEvent, countComplete, slack]

lemma applyEvent_grab_absorb (s : WorkerState) (e : WorkerEvent)
    (h : s.grab_state = false) : (applyEvent s e).1.grab_state = false := by
  cases e <;> simp [applyEvent, data_ready_grab_state, h]

lemma applyEvent_stop_mem (s : WorkerState) (e : WorkerEvent)
    (h : WorkerAction.stopProcessed ∈ (applyEvent s e).2.1) :
    (applyEvent s e).1.grab_state = false := by
  cases e with
  | dataReady b =>
    exfalso
    have h' : WorkerAction.stopProcessed ∈
        (WorkerAction.complete ::
          (if (data_ready s b).state.grab_state then []
           else [WorkerAction.driverStop])) := h
    rcases List.mem_cons.mp h' with h2 | h2
    · exact WorkerAction.noConfusion h2
    · split_ifs at h2 <;> simp at h2
  | stop_grab => rfl
  | stop_all => rfl

lemma processEvents_noIssue (evs : List WorkerEvent) :
    ∀ s : WorkerState, countIssue (processEvents s evs).2.1 = 0 := by
  induction evs with
  | nil => intro s; simp [processEvents, countIssue]
  | cons e rest ih =>
    intro s
    simp only [processEvents, countIssue, List.countP_append] at *
    have h1 := applyEvent_noIssue s e
    simp only [countIssue] at h1
    rw [h1, ih]

lemma processEvents_slack (evs : List WorkerEvent) :
    ∀ s : WorkerState,
      slack (processEvents s evs).1 ≤ countComplete (processEvents s evs).2.1 + slack s := by
  induction evs with
  | nil => intro s; simp [processEvents]
  | cons e rest ih =>
    intro s
    simp only [processEvents, countComplete, List.countP_append]
    have h1 := applyEvent_slack s e
    have h2 := ih (applyEvent s e).1
    simp only [countComplete] at h1 h2
    omega

lemma processEvents_grab_absorb (evs : List WorkerEvent) :
    ∀ s : WorkerState, s.grab_state = false →
      (processEvents s evs).1.grab_state = false := by
  induction evs with
  | nil => intro s h; exact h
  | cons e rest ih =>
    intro s h
    exact ih _ (applyEvent_grab_absorb s e h)

lemma processEvents_stop_mem (evs : List WorkerEvent) :
    ∀ s : WorkerState, WorkerAction.stopProcessed ∈ (processEvents s evs).2.1 →
      (processEvents s evs).1.grab_state = false := by
  induction evs with
  | nil => intro s h; simp [processEvents] at h
  | cons e rest ih =>
    intro s h
    simp only [processEvents, List.mem_append] at h
    rcases h with h | h
    · exact processEvents_grab_absorb rest _ (applyEvent_stop_mem s e h)
    · exact ih _ h

lemma processEvents_stop_event (evs : List WorkerEvent) :
    ∀ s : WorkerState, WorkerEvent.stop_grab ∈ evs →
      (processEvents s evs).1.grab_state = false := by
  induction evs with
  | nil => intro s h; simp at h
  | cons e rest ih =>
    intro s h
    rcases List.mem_cons.mp h with h | h
    · subst h
      exact processEvents_grab_absorb rest _ rfl
    · exact ih _ h

lemma countP_prefix_le {α : Type} (f : α → Bool) (p l : List α) (h : p <+: l) :
    p.countP f ≤ l.countP f :=
  h.sublist.countP_le f

lemma prefix_append_cases {α : Type} (A B p : List α) (h : p <+: A ++ B) :
    p <+: A ∨ ∃ q, q <+: B ∧ p = A ++ q := by
  rcases h with ⟨t, ht⟩
  rcases List.append_eq_append_iff.mp ht with ⟨a', ha1, ha2⟩ | ⟨c', hc1, hc2⟩
  · exact Or.inl ⟨a', ha1.symm⟩
  · exact Or.inr ⟨c', ⟨t, hc2.symm⟩, hc1⟩

lemma loopIter_state (s : WorkerState) (evs : List WorkerEvent) :
    (loopIter s evs).1 =
      (processEvents
        (if ¬ s.waiting_for_data then { s with waiting_for_data := true } else s) evs).1 := rfl

lemma loopIter_acts (s : WorkerState) (evs : List WorkerEvent) :
    (loopIter s evs).2.1 =
      (if ¬ s.waiting_for_data then [WorkerAction.issue] else []) ++
        (processEvents
          (if ¬ s.waiting_for_data then { s with waiting_for_data := true } else s) evs).2.1 :=
  rfl

lemma loopIter_brk (s : WorkerState) (evs : List WorkerEvent) :
    (loopIter s evs).2.2.2 =
      (let s2 := (processEvents
        (if ¬ s.waiting_for_data then { s with waiting_for_data := true } else s) evs).1
      (s2.single_grab && (s2.hardware_averaging || s2.average_done)) ||
        !s2.grab_state || s2.live_mode_available) := rfl

lemma countIssue_cons_issue (q : List WorkerAction) :
    countIssue (WorkerAction.issue :: q) = countIssue q + 1 := by
  simp [countIssue]

lemma countComplete_cons_issue (q : List WorkerAction) :
    countComplete (WorkerAction.issue :: q) = countComplete q := by
  simp [countComplete]

lemma loopIter_bound (s : WorkerState) (evs : List WorkerEvent)
    (p : List WorkerAction) (hp : p <+: (loopIter s evs).2.1) :
    countIssue p ≤ countComplete p + slack s := by
  rw [loopIter_acts] at hp
  by_cases hw : s.waiting_for_data
  · simp only [hw, not_true_eq_false, if_false, List.nil_append] at hp
    have h0 := countP_prefix_le (fun a => decide (a = WorkerAction.issue)) _ _ hp
    have h1 := processEvents_noIssue evs s
    simp only [countIssue, countComplete] at *
    omega
  · simp only [hw, not_false_eq_true, if_true, Bool.not_eq_true,
      List.singleton_append] at hp
    cases p with
    | nil => simp [countIssue, countComplete]
    | cons a q =>
      rcases List.cons_prefix_cons.mp hp with ⟨rfl, hq⟩
      have h0 := countP_prefix_le (fun a => decide (a = WorkerAction.issue)) _ _ hq
      have h1 := processEvents_noIssue evs { s with waiting_for_data := true }
      have hb : countIssue q = 0 := by
        simp only [countIssue] at h1 ⊢
        omega
      have hs : slack s = 1 := by simp [slack, hw]
      rw [countIssue_cons_issue, countComplete_cons_issue, hs, hb]
      omega

lemma loopIter_slack (s : WorkerState) (evs : List WorkerEvent) :
    slack (loopIter s evs).1 + countIssue (loopIter s evs).2.1 ≤
      countComplete (loopIter s evs).2.1 + slack s := by
  rw [loopIter_state, loopIter_acts]
  by_cases hw : s.waiting_for_data
  · simp only [hw, not_true_eq_false, if_false, List.nil_append]
    have h := processEvents_slack evs s
    have h1 := processEvents_noIssue evs s
    omega
  · have h := processEvents_slack evs { s with waiting_for_data := true }
    have h1 := processEvents_noIssue evs { s with waiting_for_data := true }
    have hs1 : slack { s with waiting_for_data := true } = 0 := rfl
    have hs : slack s = 1 := by simp [slack, hw]
    rw [hs1] at h
    simp [hw, countIssue_cons_issue, countComplete_cons_issue, hs, h1]
    omega

lemma runLoop_issue_bound (sched : List (List WorkerEvent)) :
    ∀ (s : WorkerState) (p : List WorkerAction),
      p <+: (runLoop s sched).2.1 → countIssue p ≤ countComplete p + slack s := by
  induction sched with
  | nil =>
    intro s p hp
    have : p = [] := List.prefix_nil.mp hp
    subst this
    simp [countIssue, countComplete]
  | cons evs rest ih =>
    intro s p hp
    simp only [runLoop] at hp
    by_cases hbrk : (loopIter s evs).2.2.2
    · rw [if_pos hbrk] at hp
      exact loopIter_bound s evs p hp
    · rw [if_neg hbrk] at hp
      rcases prefix_append_cases _ _ _ hp with h | ⟨q, hq, rfl⟩
      · exact loopIter_bound s evs p h
      · have h1 := ih (loopIter s evs).1 q hq
        have h2 := loopIter_slack s evs
        have h3 := loopIter_bound s evs (loopIter s evs).2.1 (List.prefix_refl _)
        simp only [countIssue, countComplete, List.countP_append] at *
        omega

/-- **C3.** At most one in-flight hardware request: during any execution of
the worker's grab loop (`DAQ_Detector.grab_data`), along every prefix of the
action trace the number of `waiting_for_data = True` acquisitions
(`issue`, guarded by `if not self.waiting_for_data`) never exceeds the
number of completed `data_ready` callbacks (`complete`, each clearing the
flag) by more than one — `waiting_for_data` is never set a second time
before the matching completion cleared it. -/
theorem C3_at_most_one_inflight (s : WorkerState) (N : ℕ)
    (sched : List (List WorkerEvent)) (p : List WorkerAction)
    (hp : p <+: (grab_data s N sched).2.1) :
    countIssue p ≤ countComplete p + 1 := by
  have h := runLoop_issue_bound sched
    { s with ind_average := 0, Naverage := N,
             average_done := if 1 < N then false else s.average_done,
             waiting_for_data := false } p hp
  simpa [slack] using h

/-- Concrete worker for the `C3` / `C4` witnesses: live grab, software
averaging with target 2. -/
def wLoop : WorkerState :=
  { grab_state := true, single_grab := false, Naverage := 2 }

/-- Concrete two-iteration schedule: one completed acquisition, then a
`stop_grab` command. -/
def schedLoop : List (List WorkerEvent) :=
  [[WorkerEvent.dataReady []], [WorkerEvent.stop_grab]]

/-- Witness for `C3`: on the concrete schedule the trace is
`[issue, complete, issue, stopProcessed]`, and every issue is covered. -/
theorem C3_at_most_one_inflight_witness :
    ([WorkerAction.issue, WorkerAction.complete, WorkerAction.issue,
        WorkerAction.stopProcessed] <+: (grab_data wLoop 2 schedLoop).2.1) ∧
    countIssue [WorkerAction.issue, WorkerAction.complete, WorkerAction.issue,
        WorkerAction.stopProcessed] ≤
      countComplete [WorkerAction.issue, WorkerAction.complete, WorkerAction.issue,
        WorkerAction.stopProcessed] + 1 :=
  ⟨by decide,
   C3_at_most_one_inflight wLoop 2 schedLoop _ (by decide)⟩

/-- `true` when no hardware request (`issue`) occurs after a processed stop
command (`stopProcessed`) anywhere in the trace. -/
def noIssueAfterStop : List WorkerAction → Bool
  | [] => true
  | a :: rest =>
    if a = WorkerAction.stopProcessed then
      decide (WorkerAction.issue ∉ rest) && noIssueAfterStop rest
    else noIssueAfterStop rest

lemma noIssueAfterStop_of_no_issue (l : List WorkerAction)
    (h : WorkerAction.issue ∉ l) : noIssueAfterStop l = true := by
  induction l with
  | nil => rfl
  | cons a rest ih =>
    have h1 : WorkerAction.issue ∉ rest := fun hm => h (List.mem_cons_of_mem _ hm)
    simp only [noIssueAfterStop]
    split_ifs with ha
    · simp [h1, ih h1]
    · exact ih h1

lemma noIssueAfterStop_append (A B : List WorkerAction)
    (hA : noIssueAfterStop A = true) (hB : noIssueAfterStop B = true)
    (hAB : WorkerAction.stopProcessed ∈ A → WorkerAction.issue ∉ B) :
    noIssueAfterStop (A ++ B) = true := by
  induction A with
  | nil => simpa using hB
  | cons a A' ih =>
    by_cases ha : a = WorkerAction.stopProcessed
    · subst ha
      have hA' : (decide (WorkerAction.issue ∉ A') && noIssueAfterStop A') = true := hA
      rw [Bool.and_eq_true, decide_eq_true_eq] at hA'
      have hB' := hAB (List.mem_cons_self _ _)
      have hrec := ih hA'.2 (fun _ => hB')
      have hni : WorkerAction.issue ∉ A' ++ B := by
        intro hm
        rcases List.mem_append.mp hm with h | h
        · exact hA'.1 h
        · exact hB' h
      show (decide (WorkerAction.issue ∉ A' ++ B) && noIssueAfterStop (A' ++ B)) = true
      rw [Bool.and_eq_true, decide_eq_true_eq]
      exact ⟨hni, hrec⟩
    · simp only [noIssueAfterStop, if_neg ha] at hA
      simp only [List.cons_append, noIssueAfterStop, if_neg ha]
      exact ih hA (fun hm => hAB (List.mem_cons_of_mem _ hm))

lemma processEvents_issue_not_mem (evs : List WorkerEvent) (s : WorkerState) :
    WorkerAction.issue ∉ (processEvents s evs).2.1 := by
  intro hm
  have h := processEvents_noIssue evs s
  simp only [countIssue] at h
  have h2 := List.countP_eq_zero.mp h _ hm
  simp at h2

lemma loopIter_trace_ok (s : WorkerState) (evs : List WorkerEvent) :
    noIssueAfterStop (loopIter s evs).2.1 = true := by
  rw [loopIter_acts]
  by_cases hw : s.waiting_for_data
  · simp only [hw, not_true_eq_false, if_false, List.nil_append]
    exact noIssueAfterStop_of_no_issue _ (processEvents_issue_not_mem evs s)
  · simp only [hw, not_false_eq_true, if_true, List.singleton_append, noIssueAfterStop,
      reduceIte]
    exact noIssueAfterStop_of_no_issue _
      (processEvents_issue_not_mem evs { s with waiting_for_data := true })

lemma loopIter_brk_of_stop (s : WorkerState) (evs : List WorkerEvent)
    (h : WorkerAction.stopProcessed ∈ (loopIter s evs).2.1) :
    (loopIter s evs).2.2.2 = true := by
  rw [loopIter_acts] at h
  have hmem : WorkerAction.stopProcessed ∈
      (processEvents
        (if ¬ s.waiting_for_data then { s with waiting_for_data := true } else s) evs).2.1 := by
    rcases List.mem_append.mp h with h | h
    · exfalso
      split_ifs at h <;> simp at h
    · exact h
  have hg := processEvents_stop_mem evs _ hmem
  rw [loopIter_brk]
  simp only [Bool.not_eq_true] at hg
  simp [hg]

lemma loopIter_brk_of_stop_event (s : WorkerState) (evs : List WorkerEvent)
    (h : WorkerEvent.stop_grab ∈ evs) :
    (loopIter s evs).2.2.2 = true := by
  rw [loopIter_brk]
  have hg := processEvents_stop_event evs
    (if ¬ s.waiting_for_data then { s with waiting_for_data := true } else s) h
  simp only [Bool.not_eq_true] at hg
  simp [hg]

lemma runLoop_no_issue_after_stop (sched : List (List WorkerEvent)) :
    ∀ s : WorkerState, noIssueAfterStop (runLoop s sched).2.1 = true := by
  induction sched with
  | nil => intro s; rfl
  | cons evs rest ih =>
    intro s
    simp only [runLoop]
    by_cases hbrk : (loopIter s evs).2.2.2
    · rw [if_pos hbrk]
      exact loopIter_trace_ok s evs
    · rw [if_neg hbrk]
      refine noIssueAfterStop_append _ _ (loopIter_trace_ok s evs) (ih _) ?_
      intro hstop
      exact absurd (loopIter_brk_of_stop s evs hstop) hbrk

/-- **C4.** A `stop_grab` command processed while the worker's grab loop is
live clears `grab_state` (`queue_command`), so the same iteration's `break`
check (`if not self.grab_state: break`) already fires — the loop exits at
the iteration boundary — and no hardware request is ever issued after a
processed stop anywhere in a loop execution's trace: the trace of
`DAQ_Detector.grab_data` satisfies `noIssueAfterStop`. -/
theorem C4_stop_grab_halts_loop (s : WorkerState) (N : ℕ) (evs : List WorkerEvent)
    (sched : List (List WorkerEvent)) (hstop : WorkerEvent.stop_grab ∈ evs) :
    (loopIter s evs).2.2.2 = true ∧
    noIssueAfterStop (grab_data s N sched).2.1 = true :=
  ⟨loopIter_brk_of_stop_event s evs hstop, runLoop_no_issue_after_stop sched _⟩

/-- Witness for `C4`: on the concrete worker and schedule, the iteration
that receives `stop_grab` breaks, and the produced trace has no issue after
the processed stop. -/
theorem C4_stop_grab_halts_loop_witness :
    (loopIter wLoop [WorkerEvent.stop_grab]).2.2.2 = true ∧
    noIssueAfterStop (grab_data wLoop 2 schedLoop).2.1 = true :=
  C4_stop_grab_halts_loop wLoop 2 [WorkerEvent.stop_grab] schedLoop (by decide)

end DAQ_Detector

namespace DAQ_Viewer

/-- Modelled from the spec: the repository's `DataToExport` container class
(`pymodaq.utils.data`, not among the provided source files).  Spec §3: an
AggregatedExport carries a source title and an ordered list of fragments;
`DAQ_Viewer.show_data` wraps the raw batch into it and viewer echoes are
appended. -/
structure DataToExport where
  name : String
  data : List DataFromPlugins
  deriving Repr, DecidableEq

/-- Modelled from the spec (§4.3 `onViewerFragment`: "append to the open
AggregatedExport"): list concatenation of the carried items. -/
def DataToExport.append (e other : DataToExport) : DataToExport :=
  { e with data := e.data ++ other.data }

/-- Modelled from the spec (§4.3 step 4: "recompute a cumulative mean across
successive cycles using the same incremental-mean formula"): item-by-item
incremental-mean step at weight `n` between the freshly received export `e`
(the new sample) and the previously stored data `other`. -/
def DataToExport.average (e other : DataToExport) (n : ℕ) : DataToExport :=
  { e with data := List.zipWith (panelIncMean n) other.data e.data }

/-- Elementwise difference of two matching items. -/
def panelSub (p q : DataFromPlugins) : DataFromPlugins :=
  { p with data := List.zipWith arrSub p.data q.data }

/-- Modelled from the spec (§4.3 step 8 and §8: subtraction of the stored
Background; "the stored Background is never mutated"): elementwise
difference of matching items, as a pure function. -/
def DataToExport.sub (e b : DataToExport) : DataToExport :=
  { e with data := List.zipWith panelSub e.data b.data }

/-- The `DAQ_Viewer` attributes and settings-tree values driving the
aggregation / background / overshoot pipeline (`DAQ_Viewer.__init__` and the
`main_settings` parameters).  `hasUI` is `self.ui is not None`; `numViewers`
is `len(self.viewers)`, the number of attached display surfaces. -/
structure ViewerState where
  grabing : Bool := false            -- `_grabing`
  send_to_tcpip : Bool := false      -- `_send_to_tcpip`
  grab_done : Bool := false          -- `_grab_done`
  received_data : ℕ := 0             -- `_received_data`
  start_grab_time : ℚ := 0           -- `_start_grab_time`
  take_bkg : Bool := false           -- `_take_bkg`
  do_bkg : Bool := false             -- `_do_bkg`
  bkg : Option DataToExport := none  -- `_bkg`
  data_to_save_export : Option DataToExport := none  -- `_data_to_save_export`
  current_data : Option DataToExport := none         -- `_current_data`
  ind_continuous_grab : ℕ := 0       -- `_ind_continuous_grab`
  do_save_data : Bool := false       -- `_do_save_data`
  title : String := ""               -- `_title`
  live_averaging : Bool := false     -- `main_settings/live_averaging`
  N_live_averaging : ℕ := 0          -- `main_settings/N_live_averaging`
  Naverage : ℕ := 1                  -- `main_settings/Naverage`
  show_data_setting : Bool := true   -- `main_settings/show_data`
  refresh_time : ℚ := 0              -- `main_settings/refresh_time` (ms)
  stop_overshoot : Bool := false     -- `main_settings/overshoot/stop_overshoot`
  overshoot_value : ℚ := 0           -- `main_settings/overshoot/overshoot_value`
  tcp_connected : Bool := false      -- `main_settings/tcpip/tcp_connected`
  hasUI : Bool := true
  numViewers : ℕ := 0
  deriving Repr, DecidableEq

/-- `DAQ_Viewer._process_overshoot`: the number of
`overshoot_signal.emit(True)` calls for one incoming batch — the nested
loops emit once per data array containing a value at or above the
configured threshold (`if any(channel >= overshoot_value)`). -/
def process_overshoot (s : ViewerState) (data : List DataFromPlugins) : ℕ :=
  if s.stop_overshoot then
    (data.map (fun channels =>
      channels.data.countP (fun channel =>
        channel.any (fun v => decide (s.overshoot_value ≤ v))))).sum
  else 0

/-- The refresh-throttling decision of `DAQ_Viewer.show_data`: in continuous
grab refresh only when the elapsed time exceeds `refresh_time` milliseconds,
in snap mode always refresh. -/
def refreshDue (s : ViewerState) (now : ℚ) : Bool :=
  if s.grabing then decide (s.refresh_time / 1000 < now - s.start_grab_time) else true

/-- The live-averaging update of `show_data` (step `if
self.settings['main_settings', 'live_averaging']`): the stored
`_current_data` is a `copy.deepcopy` of the freshly wrapped export taken
*immediately before* the increment-and-average, so the `average` call
combines the new export with an identical copy of itself at weight
`_ind_continuous_grab + 1`. -/
def liveAveragedExport (s : ViewerState) (export0 : DataToExport) : DataToExport :=
  if s.live_averaging ∧ 1 < s.ind_continuous_grab + 1 then
    DataToExport.average export0 export0 (s.ind_continuous_grab + 1)
  else export0

/-- Result of one `DAQ_Viewer.show_data` call: the new controller state, any
payload forwarded over TCP, the number of overshoot alerts, the payload sent
to the display surfaces (`set_data_to_viewers`, `None` when display was
skipped), and the exports emitted on `grab_done_signal`. -/
structure ShowDataResult where
  state : ViewerState
  tcpSent : List (List DataFromPlugins)
  overshootEmits : ℕ
  sentToViewers : Option DataToExport
  emitted : List DataToExport
  deriving Repr, DecidableEq

/-- `DAQ_Viewer.show_data`, in source order: optional TCP forward,
`_init_show_data` (overshoot check), wrap the batch into a fresh
`_data_to_save_export`, live-averaging update, one-shot background capture,
refresh throttling, then either forward a deep copy (optionally
background-subtracted) to the viewers with `_received_data = 0`, or mark the
cycle done and emit the export immediately. -/
def show_data (s : ViewerState) (now : ℚ) (data : List DataFromPlugins) :
    ShowDataResult :=
  let tcp := if s.tcp_connected && s.send_to_tcpip then [data] else []
  let overshoots := process_overshoot s data
  let export0 : DataToExport := { name := s.title, data := data }
  let curD : Option DataToExport :=
    if s.live_averaging then some export0 else s.current_data
  let nLive : ℕ :=
    if s.live_averaging then s.ind_continuous_grab else s.N_live_averaging
  let indC : ℕ :=
    if s.live_averaging then s.ind_continuous_grab + 1 else s.ind_continuous_grab
  let export1 : DataToExport := liveAveragedExport s export0
  let bkg1 : Option DataToExport := if s.take_bkg then some export1 else s.bkg
  let takeBkg1 : Bool := if s.take_bkg then false else s.take_bkg
  let refresh := refreshDue s now
  let sgt : ℚ := if s.grabing && refresh then now else s.start_grab_time
  let sBase : ViewerState :=
    { s with data_to_save_export := some export1, current_data := curD,
             ind_continuous_grab := indC, N_live_averaging := nLive,
             bkg := bkg1, take_bkg := takeBkg1, start_grab_time := sgt }
  if s.hasUI && s.show_data_setting && refresh then
    let data_to_plot : DataToExport :=
      if s.do_bkg then
        match bkg1 with
        | some b => DataToExport.sub export1 b
        | none => export1
      else export1
    { state := { sBase with received_data := 0 },
      tcpSent := tcp, overshootEmits := overshoots,
      sentToViewers := some data_to_plot, emitted := [] }
  else
    { state := { sBase with grab_done := true },
      tcpSent := tcp, overshootEmits := overshoots,
      sentToViewers := none, emitted := [export1] }

/-- `DAQ_Viewer._get_data_from_viewer` (slot connected to every viewer's
`data_to_export_signal`): ignore echoes while no export is open; otherwise
count the echo, append its (re-originated) items when non-empty, and emit
the collected export on `grab_done_signal` once the count reaches
`len(self.viewers)`. -/
def get_data_from_viewer (s : ViewerState) (data : DataToExport) :
    ViewerState × List DataToExport :=
  match s.data_to_save_export with
  | none => (s, [])
  | some e =>
    let r := s.received_data + 1
    let e1 := if data.data.length ≠ 0 then
        DataToExport.append e
          { data with data := data.data.map fun d => { d with origin := s.title } }
      else e
    if r = s.numViewers then
      ({ s with received_data := r, data_to_save_export := some e1, grab_done := true },
        [e1])
    else
      ({ s with received_data := r, data_to_save_export := some e1 }, [])

/-- Feed a list of viewer echoes through successive
`_get_data_from_viewer` calls, collecting the `grab_done_signal`
emissions. -/
def processEchoes (s : ViewerState) : List DataToExport → ViewerState × List DataToExport
  | [] => (s, [])
  | f :: rest =>
    let r := get_data_from_viewer s f
    let t := processEchoes r.1 rest
    (t.1, r.2 ++ t.2)

/-- A command sent to the worker by the controller's `grab_data`. -/
inductive Command where
  | single (Naverage : ℕ)
  | grab (Naverage : ℕ)
  | stop_grab
  deriving Repr, DecidableEq

/-- `DAQ_Viewer.grab_data` (controller side): set the grabbing/TCP flags,
clear `_grab_done`, restart `_start_grab_time`, then send `single`, `grab`
or `stop_grab` to the worker (the UI `data_ready` flag is presentation
state and is not modelled). -/
def grab_data (s : ViewerState) (now : ℚ)
    (grab_state send_to_tcpip snap_state : Bool) : ViewerState × List Command :=
  let s1 := { s with grabing := grab_state, send_to_tcpip := send_to_tcpip,
                     grab_done := false, start_grab_time := now }
  if snap_state then (s1, [Command.single s.Naverage])
  else if grab_state = false then (s1, [Command.stop_grab])
  else (s1, [Command.grab s.Naverage])

/-- `DAQ_Viewer.take_bkg`: arm the one-shot background flag, then snap. -/
def take_bkg (s : ViewerState) (now : ℚ) : ViewerState × List Command :=
  grab_data { s with take_bkg := true } now false false true

/-- `DAQ_Viewer._save_export_data` (slot on `grab_done_signal`): hand the
received export to `_save_data` exactly when a save is pending, then clear
the pending flag; the export is passed through unchanged. -/
def save_export_data (s : ViewerState) (data : DataToExport) :
    ViewerState × List DataToExport :=
  if s.do_save_data then ({ s with do_save_data := false }, [data])
  else (s, [])

lemma arrIncMean_self (n : ℕ) (hn : 1 ≤ n) (a : List ℚ) : arrIncMean n a a = a := by
  induction a with
  | nil => rfl
  | cons x t ih =>
    simp only [arrIncMean, List.zipWith_cons_cons, List.cons.injEq]
    constructor
    · have hne : (n : ℚ) ≠ 0 := Nat.cast_ne_zero.mpr (by omega)
      field_simp
      ring
    · exact ih

lemma panelIncMean_self (n : ℕ) (hn : 1 ≤ n) (p : DataFromPlugins) :
    panelIncMean n p p = p := by
  cases p with
  | mk nm o d =>
    simp only [panelIncMean, DataFromPlugins.mk.injEq, true_and]
    induction d with
    | nil => rfl
    | cons a t ih =>
      simp only [List.zipWith_cons_cons, List.cons.injEq]
      exact ⟨arrIncMean_self n hn a, ih⟩

lemma average_self (e : DataToExport) (n : ℕ) (hn : 1 ≤ n) :
    DataToExport.average e e n = e := by
  cases e with
  | mk nm d =>
    simp only [DataToExport.average, DataToExport.mk.injEq, true_and]
    induction d with
    | nil => rfl
    | cons p t ih =>
      simp only [List.zipWith_cons_cons, List.cons.injEq]
      exact ⟨panelIncMean_self n hn p, ih⟩

/-- The live-averaging step degenerates: averaging the new export against
the copy of itself that `show_data` just stored in `_current_data` returns
the new export unchanged, whatever the weight. -/
lemma liveAveragedExport_eq (s : ViewerState) (e : DataToExport) :
    liveAveragedExport s e = e := by
  unfold liveAveragedExport
  split_ifs with h
  · exact average_self e _ (by omega)
  · rfl

lemma show_data_export (s : ViewerState) (now : ℚ) (data : List DataFromPlugins) :
    (show_data s now data).state.data_to_save_export =
      some { name := s.title, data := data } := by
  simp only [show_data, liveAveragedExport_eq]
  split_ifs <;> rfl

lemma show_data_fields (s : ViewerState) (now : ℚ) (data : List DataFromPlugins) :
    (show_data s now data).state.numViewers = s.numViewers ∧
    (show_data s now data).state.title = s.title ∧
    (show_data s now data).state.do_save_data = s.do_save_data ∧
    (show_data s now data).state.bkg =
      (if s.take_bkg then some { name := s.title, data := data } else s.bkg) ∧
    (show_data s now data).state.take_bkg = false ∧
    (show_data s now data).state.ind_continuous_grab =
      (if s.live_averaging then s.ind_continuous_grab + 1 else s.ind_continuous_grab) ∧
    (show_data s now data).state.live_averaging = s.live_averaging ∧
    (show_data s now data).state.hasUI = s.hasUI ∧
    (show_data s now data).overshootEmits = process_overshoot s data := by
  simp only [show_data, liveAveragedExport_eq]
  split_ifs <;> simp_all

lemma show_data_display (s : ViewerState) (now : ℚ) (data : List DataFromPlugins)
    (h : (s.hasUI && s.show_data_setting && refreshDue s now) = true) :
    (show_data s now data).state.received_data = 0 ∧
    (show_data s now data).emitted = [] ∧
    (show_data s now data).state.grab_done = s.grab_done ∧
    (show_data s now data).sentToViewers =
      some (if s.do_bkg then
          match (if s.take_bkg then some { name := s.title, data := data } else s.bkg) with
          | some b => DataToExport.sub { name := s.title, data := data } b
          | none => { name := s.title, data := data }
        else { name := s.title, data := data }) := by
  simp only [show_data, liveAveragedExport_eq, h, if_true]
  simp_all

lemma show_data_skip (s : ViewerState) (now : ℚ) (data : List DataFromPlugins)
    (h : (s.hasUI && s.show_data_setting && refreshDue s now) = false) :
    (show_data s now data).emitted = [{ name := s.title, data := data }] ∧
    (show_data s now data).state.grab_done = true ∧
    (show_data s now data).state.received_data = s.received_data ∧
    (show_data s now data).sentToViewers = none := by
  simp only [show_data, liveAveragedExport_eq, h, if_false]
  split_ifs <;> simp_all

lemma get_data_step (s : ViewerState) (f e : DataToExport)
    (he : s.data_to_save_export = some e) (hf : f.data.length ≠ 0) :
    get_data_from_viewer s f =
      (let e1 := DataToExport.append e
          { f with data := f.data.map fun d => { d with origin := s.title } }
       if s.received_data + 1 = s.numViewers then
         ({ s with received_data := s.received_data + 1, data_to_save_export := some e1,
                   grab_done := true }, [e1])
       else
         ({ s with received_data := s.received_data + 1,
                   data_to_save_export := some e1 }, [])) := by
  simp [get_data_from_viewer, he, hf]

/-- Aggregation bookkeeping of `_get_data_from_viewer` over a list of echoes
that each carry exactly one item: the received counter advances by the
number of echoes, the open export grows by one item per echo, exactly one
emission happens — at the echo on which the counter reaches
`len(self.viewers)`, if that falls within the list — and every emitted
export extends the original raw items. -/
lemma processEchoes_spec (l : List DataToExport) :
    ∀ (s : ViewerState) (e : DataToExport),
      s.data_to_save_export = some e →
      (∀ f ∈ l, f.data.length = 1) →
      (processEchoes s l).1.received_data = s.received_data + l.length ∧
      (∃ e1, (processEchoes s l).1.data_to_save_export = some e1 ∧
        e1.data.length = e.data.length + l.length) ∧
      ((processEchoes s l).2.length =
        if s.received_data < s.numViewers ∧ s.numViewers ≤ s.received_data + l.length
        then 1 else 0) ∧
      (∀ em ∈ (processEchoes s l).2,
        em.data.length = e.data.length + (s.numViewers - s.received_data) ∧
        em.data.take e.data.length = e.data) := by
  induction l with
  | nil =>
    intro s e he _
    refine ⟨by simp [processEchoes], ⟨e, by simpa [processEchoes] using he, by simp⟩, ?_, ?_⟩
    · simp only [processEchoes, List.length_nil]
      split_ifs with h
      · omega
      · rfl
    · intro em hem
      simp [processEchoes] at hem
  | cons f rest ih =>
    intro s e he hone
    have hf : f.data.length ≠ 0 := by
      have := hone f (List.mem_cons_self _ _)
      omega
    have hf1 : f.data.length = 1 := hone f (List.mem_cons_self _ _)
    have hstep := get_data_step s f e he hf
    set e1 : DataToExport := DataToExport.append e
        { f with data := f.data.map fun d => { d with origin := s.title } } with he1
    have he1len : e1.data.length = e.data.length + 1 := by
      simp [he1, DataToExport.append, hf1]
    have he1take : e1.data.take e.data.length = e.data := by
      simp [he1, DataToExport.append, List.take_left]
    have honerest : ∀ g ∈ rest, g.data.length = 1 :=
      fun g hg => hone g (List.mem_cons_of_mem _ hg)
    by_cases hK : s.received_data + 1 = s.numViewers
    · -- this echo completes the cycle and emits
      set s1 : ViewerState := { s with received_data := s.received_data + 1, data_to_save_export := some e1, grab_done := true } with hs1
      have hrw : get_data_from_viewer s f = (s1, [e1]) := by
        rw [hstep]
        simp [hK, hs1]
      have hrec := ih s1 e1 rfl honerest
      have hp1 : s1.received_data = s.received_data + 1 := rfl
      have hp2 : s1.numViewers = s.numViewers := rfl
      rw [hp1, hp2] at hrec
      simp only [processEchoes, hrw, List.length_cons, List.singleton_append,
        List.nil_append] at *
      refine ⟨by have h0 := hrec.1; omega, ?_, ?_, ?_⟩
      · rcases hrec.2.1 with ⟨e2, h2, h2len⟩
        rw [he1len] at h2len
        exact ⟨e2, h2, by omega⟩
      · have hcount := hrec.2.2.1
        have hCn : ¬ (s.received_data + 1 < s.numViewers ∧
            s.numViewers ≤ s.received_data + 1 + rest.length) := by omega
        rw [if_neg hCn] at hcount
        have hCt : s.received_data < s.numViewers ∧
            s.numViewers ≤ s.received_data + (rest.length + 1) := by omega
        simp [hcount, hCt]
      · intro em hem
        rcases (show em = e1 ∨ em ∈ (processEchoes s1 rest).2 by simpa using hem)
          with hm | hm
        · subst hm
          constructor
          · rw [he1len]
            omega
          · exact he1take
        · exfalso
          have hcount := hrec.2.2.1
          have hCn : ¬ (s.received_data + 1 < s.numViewers ∧
              s.numViewers ≤ s.received_data + 1 + rest.length) := by omega
          rw [if_neg hCn] at hcount
          have hnil : (processEchoes s1 rest).2 = [] := List.length_eq_zero.mp hcount
          rw [hnil] at hm
          simp at hm
    · -- the counter has not reached the viewer count yet: no emission here
      set s1 : ViewerState := { s with received_data := s.received_data + 1, data_to_save_export := some e1 } with hs1
      have hrw : get_data_from_viewer s f = (s1, []) := by
        rw [hstep]
        simp [hK, hs1]
      have hrec := ih s1 e1 rfl honerest
      have hp1 : s1.received_data = s.received_data + 1 := rfl
      have hp2 : s1.numViewers = s.numViewers := rfl
      rw [hp1, hp2] at hrec
      simp only [processEchoes, hrw, List.length_cons, List.singleton_append,
        List.nil_append] at *
      refine ⟨by have h0 := hrec.1; omega, ?_, ?_, ?_⟩
      · rcases hrec.2.1 with ⟨e2, h2, h2len⟩
        rw [he1len] at h2len
        exact ⟨e2, h2, by omega⟩
      · have hcount := hrec.2.2.1
        rw [hcount]
        split_ifs <;> omega
      · intro em hem
        have h3 := hrec.2.2.2 em hem
        have hcount := hrec.2.2.1
        have hne : (processEchoes s1 rest).2.length ≠ 0 := by
          intro h0
          rw [List.length_eq_zero] at h0
          rw [h0] at hem
          simp at hem
        rw [hcount] at hne
        split_ifs at hne with hcond
        · have hlt : s.received_data + 1 < s.numViewers := hcond.1
          rw [he1len] at h3
          constructor
          · rw [h3.1]
            omega
          · have hsplit : em.data.take e.data.length =
                (em.data.take (e.data.length + 1)).take e.data.length := by
              rw [List.take_take]
              congr 1
              omega
            rw [hsplit, h3.2]
            exact he1take
        · omega
/-- **C2.** Completion protocol of one acquisition cycle (`show_data` +
`_get_data_from_viewer`): when the display branch is taken (UI present,
`show_data` setting on, refresh due) and the `K = len(self.viewers) =
frags.length ≥ 1` display surfaces each echo exactly one fragment, the
export is emitted on `grab_done_signal` exactly once, only after all `K`
echoes (every shorter echo prefix emits nothing), carrying the raw channels
plus exactly `K` appended fragments, with the received counter at `K`; a
further echo never triggers a second emission of the same cycle's export.
When the display branch is skipped — in particular with no display surfaces
attached (`self.ui is None`) — the export is emitted immediately with zero
appended fragments. -/
theorem C2_aggregated_export_completion (s : ViewerState) (now : ℚ)
    (data : List DataFromPlugins) (frags : List DataToExport) (extra : DataToExport)
    (hK : s.numViewers = frags.length) (hpos : 1 ≤ frags.length)
    (hone : ∀ f ∈ frags, f.data.length = 1) (hextra : extra.data.length = 1) :
    if s.hasUI && s.show_data_setting && refreshDue s now then
      (show_data s now data).emitted = [] ∧
      (∀ k, k < frags.length →
        (processEchoes (show_data s now data).state (frags.take k)).2 = []) ∧
      (processEchoes (show_data s now data).state frags).2.length = 1 ∧
      (∀ em ∈ (processEchoes (show_data s now data).state frags).2,
        em.data.length = data.length + frags.length ∧
        em.data.take data.length = data) ∧
      (processEchoes (show_data s now data).state frags).1.received_data = frags.length ∧
      (processEchoes (show_data s now data).state (frags ++ [extra])).2.length = 1
    else
      (show_data s now data).emitted = [{ name := s.title, data := data }] ∧
      (show_data s now data).state.grab_done = true := by
  by_cases hcond : (s.hasUI && s.show_data_setting && refreshDue s now) = true
  · rw [if_pos hcond]
    have hdisp := show_data_display s now data hcond
    have hexp := show_data_export s now data
    have hfl := show_data_fields s now data
    have hrec0 : (show_data s now data).state.received_data = 0 := hdisp.1
    have hnv : (show_data s now data).state.numViewers = s.numViewers := hfl.1
    refine ⟨hdisp.2.1, ?_, ?_, ?_, ?_, ?_⟩
    · intro k hk
      have hsp := processEchoes_spec (frags.take k) (show_data s now data).state
        { name := s.title, data := data } hexp
        (fun f hf => hone f (List.take_subset _ _ hf))
      have hlen : (frags.take k).length = k := by
        rw [List.length_take]
        omega
      have hcnt := hsp.2.2.1
      rw [hrec0, hnv, hK, hlen] at hcnt
      rw [if_neg (by omega)] at hcnt
      exact List.length_eq_zero.mp hcnt
    · have hsp := processEchoes_spec frags (show_data s now data).state
        { name := s.title, data := data } hexp hone
      have hcnt := hsp.2.2.1
      rw [hrec0, hnv, hK] at hcnt
      rw [if_pos (by omega)] at hcnt
      exact hcnt
    · intro em hem
      have hsp := processEchoes_spec frags (show_data s now data).state
        { name := s.title, data := data } hexp hone
      have hm := hsp.2.2.2 em hem
      rw [hrec0, hnv, hK] at hm
      exact ⟨by have := hm.1; simp at this ⊢; omega, hm.2⟩
    · have hsp := processEchoes_spec frags (show_data s now data).state
        { name := s.title, data := data } hexp hone
      have := hsp.1
      rw [hrec0] at this
      simpa using this
    · have hsp := processEchoes_spec (frags ++ [extra]) (show_data s now data).state
        { name := s.title, data := data } hexp ?hall
      case hall =>
        intro f hf
        rcases List.mem_append.mp hf with h | h
        · exact hone f h
        · simp at h
          rw [h]
          exact hextra
      have hcnt := hsp.2.2.1
      rw [hrec0, hnv, hK] at hcnt
      rw [List.length_append] at hcnt
      rw [if_pos (by simp; omega)] at hcnt
      exact hcnt
  · rw [if_neg hcond]
    have hf : (s.hasUI && s.show_data_setting && refreshDue s now) = false := by
      simpa using hcond
    have hskip := show_data_skip s now data hf
    exact ⟨hskip.1, hskip.2.1⟩

/-- Concrete controller for the `C2` witness: two attached display surfaces,
snap mode (refresh always due). -/
def sC2 : ViewerState := { numViewers := 2, title := "det", grabing := false }

/-- One-channel raw batch for the `C2` witness. -/
def dC2 : List DataFromPlugins := [{ name := "CH0", origin := "det", data := [[1]] }]

/-- One-fragment viewer echo for the `C2` witness. -/
def fragC2 (v : ℚ) : DataToExport :=
  { name := "viewer", data := [{ name := "roi", origin := "v", data := [[v]] }] }

/-- Witness for `C2`: with two viewers, one echo emits nothing, two echoes
emit exactly once, a third echo does not re-emit. -/
theorem C2_aggregated_export_completion_witness :
    (processEchoes (show_data sC2 0 dC2).state ([fragC2 5, fragC2 6].take 1)).2 = [] ∧
    (processEchoes (show_data sC2 0 dC2).state [fragC2 5, fragC2 6]).2.length = 1 ∧
    (processEchoes (show_data sC2 0 dC2).state ([fragC2 5, fragC2 6] ++ [fragC2 7])).2.length = 1 := by
  have h := C2_aggregated_export_completion sC2 0 dC2 [fragC2 5, fragC2 6] (fragC2 7)
    rfl (by norm_num)
    (by
      intro f hf
      rcases List.mem_cons.mp hf with rfl | hf
      · rfl
      · rcases List.mem_cons.mp hf with rfl | hf
        · rfl
        · simp at hf)
    rfl
  have hcnd : (sC2.hasUI && sC2.show_data_setting && refreshDue sC2 0) = true := by
    simp [sC2, refreshDue]
  rw [if_pos hcnd] at h
  exact ⟨h.2.1 1 (by norm_num), h.2.2.1, h.2.2.2.2.2⟩

/-- Controller with overshoot checking enabled at threshold 3, for `C5`. -/
def sC5 : ViewerState := { stop_overshoot := true, overshoot_value := 3 }

/-- A batch with one channel group holding two 0-dimensional arrays whose
values 5 and 6 both reach the threshold. -/
def dC5 : List DataFromPlugins := [{ name := "CH0", origin := "det", data := [[5], [6]] }]

/-- **C5 counterexample.** The claim says a batch with some 0-dimensional
value ≥ threshold fires *exactly one* overshoot alert; on a batch whose two
0-dimensional arrays both reach the threshold, `_process_overshoot` emits
the alert twice (once per offending array), so the claim fails. -/
theorem C5_counterexample :
    (5 : ℚ) ≥ sC5.overshoot_value ∧ process_overshoot sC5 dC5 = 2 ∧ (2 : ℕ) ≠ 1 := by
  refine ⟨by norm_num [sC5], ?_, by norm_num⟩
  have h5 : ((3 : ℚ) ≤ 5) := by norm_num
  have h6 : ((3 : ℚ) ≤ 6) := by norm_num
  simp [process_overshoot, sC5, dC5, List.countP_cons, h5, h6]

/-- **C5 amended.** With overshoot checking enabled, `_process_overshoot`
fires one alert per data array containing a value at or above the threshold:
no alert when every value is strictly below the threshold, at least one
alert when some value reaches it (possibly several per batch), and the
decision is recomputed fresh from the current batch — it depends on nothing
but the two overshoot settings (non-latching, no state carried across
batches). -/
theorem C5_overshoot_per_array (s : ViewerState) (data : List DataFromPlugins)
    (hen : s.stop_overshoot = true) :
    ((∀ ch ∈ data, ∀ arr ∈ ch.data, ∀ v ∈ arr, v < s.overshoot_value) →
      process_overshoot s data = 0) ∧
    ((∃ ch ∈ data, ∃ arr ∈ ch.data, ∃ v ∈ arr, s.overshoot_value ≤ v) →
      1 ≤ process_overshoot s data) ∧
    (∀ s2 : ViewerState, s2.stop_overshoot = s.stop_overshoot →
      s2.overshoot_value = s.overshoot_value →
      process_overshoot s2 data = process_overshoot s data) := by
  refine ⟨?_, ?_, ?_⟩
  · intro hall
    simp only [process_overshoot, hen, if_true]
    apply List.sum_eq_zero
    intro x hx
    rcases List.mem_map.mp hx with ⟨ch, hch, rfl⟩
    apply List.countP_eq_zero.mpr
    intro arr harr
    simp only [List.any_eq_true, decide_eq_true_eq, not_exists]
    intro v
    rw [not_and]
    intro hv hle
    exact absurd hle (not_le.mpr (hall ch hch arr harr v hv))
  · rintro ⟨ch, hch, arr, harr, v, hv, hle⟩
    simp only [process_overshoot, hen, if_true]
    have hcp : 0 < ch.data.countP (fun channel =>
        channel.any (fun w => decide (s.overshoot_value ≤ w))) := by
      rw [List.countP_pos]
      exact ⟨arr, harr, by simp only [List.any_eq_true, decide_eq_true_eq]; exact ⟨v, hv, hle⟩⟩
    calc 1 ≤ ch.data.countP (fun channel =>
          channel.any (fun w => decide (s.overshoot_value ≤ w))) := hcp
      _ ≤ _ := List.single_le_sum (fun _ _ => Nat.zero_le _) _
          (List.mem_map_of_mem (fun c : DataFromPlugins => c.data.countP
            (fun channel => channel.any (fun w => decide (s.overshoot_value ≤ w)))) hch)
  · intro s2 h1 h2
    simp [process_overshoot, h1, h2]

/-- Below-threshold controller and batch for the `C5` witness. -/
def sC5w : ViewerState := { stop_overshoot := true, overshoot_value := 10 }

/-- Batch whose values 1 and 2 are strictly below the threshold 10. -/
def dC5w : List DataFromPlugins := [{ name := "CH0", origin := "det", data := [[1], [2]] }]

/-- Witness for the amended `C5`: all values strictly below the threshold
fire no alert. -/
theorem C5_overshoot_per_array_witness : process_overshoot sC5w dC5w = 0 :=
  (C5_overshoot_per_array sC5w dC5w rfl).1 (by
    intro ch hch arr harr v hv
    rcases List.mem_cons.mp hch with rfl | hch
    · simp only [sC5w]
      simp [dC5w] at harr ⊢
      rcases harr with rfl | rfl <;> simp_all <;> norm_num
    · simp [dC5w] at hch)

/-- Controller with live averaging enabled and no UI (headless), for `C6`. -/
def sC6 : ViewerState := { live_averaging := true, hasUI := false, title := "det" }

/-- First live batch, value 0. -/
def batch6a : List DataFromPlugins := [{ name := "CH0", origin := "det", data := [[0]] }]

/-- Second live batch, value 2. -/
def batch6b : List DataFromPlugins := [{ name := "CH0", origin := "det", data := [[2]] }]

/-- **C6 (code bug).** With controller-level live averaging enabled,
`show_data` stores `copy.deepcopy` of the *freshly received* batch into
`_current_data` *before* incrementing the counter and averaging, so
`self._data_to_save_export.average(self._current_data, n)` combines the new
batch with an identical copy of itself and returns it unchanged: after the
batches `[0]` and `[2]` the stored export holds the latest batch `[2]`, not
the cumulative mean `[1]` that the claim (and spec §4.3 step 4) requires,
while the cycle counter still increments to 2.  Live averaging therefore
never forms a cumulative mean — the copy should be taken *after* the
averaging step. -/
theorem C6_live_averaging_no_cumulative_mean :
    (show_data (show_data sC6 0 batch6a).state 0 batch6b).state.data_to_save_export =
      some { name := "det", data := batch6b } ∧
    (show_data (show_data sC6 0 batch6a).state 0 batch6b).state.ind_continuous_grab = 2 ∧
    some ({ name := "det",
            data := [{ name := "CH0", origin := "det", data := [[1]] }] } : DataToExport) ≠
      some ({ name := "det", data := batch6b } : DataToExport) := by
  have hfa := show_data_fields sC6 0 batch6a
  have htitle : (show_data sC6 0 batch6a).state.title = "det" := hfa.2.1
  have hindA : (show_data sC6 0 batch6a).state.ind_continuous_grab = 1 := by
    have := hfa.2.2.2.2.2.1
    simpa [sC6] using this
  have hliveA : (show_data sC6 0 batch6a).state.live_averaging = true := by
    have := hfa.2.2.2.2.2.2.1
    simpa [sC6] using this
  have hfb := show_data_fields (show_data sC6 0 batch6a).state 0 batch6b
  refine ⟨?_, ?_, ?_⟩
  · rw [show_data_export, htitle]
  · have := hfb.2.2.2.2.2.1
    rw [hliveA, hindA] at this
    simpa using this
  · norm_num [batch6b]

/-- Controller with the one-shot background flag armed, display on and snap
mode, for the `C7` counterexample. -/
def sC7 : ViewerState := { take_bkg := true, grabing := false, title := "det", numViewers := 1 }

/-- One-channel batch for `C7`. -/
def dC7 : List DataFromPlugins := [{ name := "CH0", origin := "det", data := [[1]] }]

/-- **C7 counterexample.** The claim says the `show_data` call that consumes
the armed background flag "does not forward that batch to the display
surfaces"; in the code the flag only controls the snapshot — the display
path runs as usual, so the batch *is* sent to the viewers
(`sentToViewers ≠ none`) while the snapshot is stored and the flag
cleared. -/
theorem C7_counterexample :
    (show_data sC7 0 dC7).state.bkg = some { name := "det", data := dC7 } ∧
    (show_data sC7 0 dC7).state.take_bkg = false ∧
    (show_data sC7 0 dC7).sentToViewers ≠ none := by
  have hcnd : (sC7.hasUI && sC7.show_data_setting && refreshDue sC7 0) = true := by
    simp [sC7, refreshDue]
  have hd := show_data_display sC7 0 dC7 hcnd
  have hf := show_data_fields sC7 0 dC7
  refine ⟨?_, hf.2.2.2.2.1, ?_⟩
  · have := hf.2.2.2.1
    simpa [sC7] using this
  · rw [hd.2.2.2]
    simp

/-- **C7 amended.** `take_bkg` arms the one-shot flag; the next `show_data`
call stores a deep-copy snapshot of the (wrapped) incoming batch as the
Background and clears the flag — but it still forwards the batch to the
display surfaces through the normal display path whenever the display
conditions hold (UI present, `show_data` setting on, refresh due); the
snapshot replaces nothing in the display/emission flow. -/
theorem C7_background_capture (s : ViewerState) (now : ℚ)
    (data : List DataFromPlugins) (harm : s.take_bkg = true) :
    (show_data s now data).state.bkg = some { name := s.title, data := data } ∧
    (show_data s now data).state.take_bkg = false ∧
    ((s.hasUI && s.show_data_setting && refreshDue s now) = true →
      (show_data s now data).sentToViewers ≠ none) := by
  have hf := show_data_fields s now data
  refine ⟨?_, hf.2.2.2.2.1, ?_⟩
  · have := hf.2.2.2.1
    simpa [harm] using this
  · intro hcnd
    have hd := show_data_display s now data hcnd
    rw [hd.2.2.2]
    simp

/-- Witness for the amended `C7` at the concrete armed controller. -/
theorem C7_background_capture_witness :
    (show_data sC7 0 dC7).state.bkg = some { name := sC7.title, data := dC7 } ∧
    (show_data sC7 0 dC7).state.take_bkg = false ∧
    (show_data sC7 0 dC7).sentToViewers ≠ none := by
  have h := C7_background_capture sC7 0 dC7 rfl
  exact ⟨h.1, h.2.1, h.2.2 (by simp [sC7, refreshDue])⟩

/-- Controller with a stale received-fragment count, for the `C8`
counterexample. -/
def sC8 : ViewerState := { received_data := 3 }

/-- **C8 counterexample.** The claim says every `DAQ_Viewer.grab_data` call
resets the received-fragment count to 0; the code resets only `_grab_done`
and `_start_grab_time` — `_received_data` keeps its stale value 3 (it is
reset later, by `show_data`'s display branch). -/
theorem C8_counterexample :
    (grab_data sC8 0 false false true).1.received_data = 3 ∧ (3 : ℕ) ≠ 0 :=
  ⟨rfl, by norm_num⟩

/-- **C8 amended.** Every call of the controller's `grab_data` (grab, stop
or snap) clears the completion flag and restarts the cycle timestamp, but
leaves the received-fragment count unchanged; that count is instead reset
to 0 by `show_data` when it forwards data to the viewers. -/
theorem C8_grab_data_bookkeeping (s : ViewerState) (now : ℚ)
    (gs stt ss : Bool) (data : List DataFromPlugins) :
    (grab_data s now gs stt ss).1.grab_done = false ∧
    (grab_data s now gs stt ss).1.start_grab_time = now ∧
    (grab_data s now gs stt ss).1.received_data = s.received_data ∧
    ((s.hasUI && s.show_data_setting && refreshDue s now) = true →
      (show_data s now data).state.received_data = 0) := by
  refine ⟨?_, ?_, ?_, fun hcnd => (show_data_display s now data hcnd).1⟩ <;>
    · unfold grab_data
      split_ifs <;> rfl

/-- Witness for the amended `C8` at a concrete call. -/
theorem C8_grab_data_bookkeeping_witness :
    (grab_data sC8 0 false false true).1.grab_done = false ∧
    (grab_data sC8 0 false false true).1.start_grab_time = 0 ∧
    (grab_data sC8 0 false false true).1.received_data = sC8.received_data ∧
    (show_data sC8 0 dC7).state.received_data = 0 := by
  have h := C8_grab_data_bookkeeping sC8 0 false false true dC7
  exact ⟨h.1, h.2.1, h.2.2.1, h.2.2.2 (by simp [sC8, refreshDue])⟩

/-- **C10.** Background subtraction acts only on the deep copy forwarded to
the display surfaces: with subtraction enabled and a Background stored, the
payload handed to `set_data_to_viewers` is the subtracted copy, while the
stored export keeps the raw (unsubtracted) channels, the stored Background
is unchanged, nothing is emitted during `show_data` itself, every export
later emitted on `grab_done_signal` by the echo aggregation still starts
with the raw unsubtracted channels, and `_save_export_data` passes the
emitted export to saving unchanged. -/
theorem C10_subtraction_only_on_display_copy (s : ViewerState) (now : ℚ)
    (data : List DataFromPlugins) (B : DataToExport)
    (hui : s.hasUI = true) (hshow : s.show_data_setting = true)
    (hsnap : s.grabing = false) (hdo : s.do_bkg = true)
    (hbkg : s.bkg = some B) (htb : s.take_bkg = false) :
    (show_data s now data).sentToViewers =
      some (DataToExport.sub { name := s.title, data := data } B) ∧
    (show_data s now data).state.data_to_save_export =
      some { name := s.title, data := data } ∧
    (show_data s now data).state.bkg = some B ∧
    (show_data s now data).emitted = [] ∧
    (∀ frags : List DataToExport, (∀ f ∈ frags, f.data.length = 1) →
      ∀ em ∈ (processEchoes (show_data s now data).state frags).2,
        em.data.take data.length = data) ∧
    (∀ X : DataToExport, (save_export_data (show_data s now data).state X).2 =
      if s.do_save_data then [X] else []) := by
  have hcnd : (s.hasUI && s.show_data_setting && refreshDue s now) = true := by
    simp [hui, hshow, refreshDue, hsnap]
  have hd := show_data_display s now data hcnd
  have hf := show_data_fields s now data
  have hexp := show_data_export s now data
  refine ⟨?_, hexp, ?_, hd.2.1, ?_, ?_⟩
  · rw [hd.2.2.2, htb, hdo]
    simp [hbkg]
  · have := hf.2.2.2.1
    rw [htb] at this
    simpa [hbkg] using this
  · intro frags hone em hem
    have hsp := processEchoes_spec frags (show_data s now data).state
      { name := s.title, data := data } hexp hone
    exact (hsp.2.2.2 em hem).2
  · intro X
    unfold save_export_data
    have := hf.2.2.1
    rw [this]
    split_ifs <;> rfl

/-- Stored background for the `C10` witness. -/
def B10 : DataToExport :=
  { name := "bkg", data := [{ name := "CH0", origin := "det", data := [[1]] }] }

/-- Controller with subtraction enabled and `B10` stored, snap mode. -/
def sC10 : ViewerState :=
  { do_bkg := true, bkg := some B10, grabing := false, title := "det", numViewers := 1 }

/-- Witness for `C10` at the concrete controller: subtracted copy to the
viewers, raw channels in the stored export, Background untouched. -/
theorem C10_subtraction_only_on_display_copy_witness :
    (show_data sC10 0 dC7).sentToViewers =
      some (DataToExport.sub { name := sC10.title, data := dC7 } B10) ∧
    (show_data sC10 0 dC7).state.data_to_save_export =
      some { name := sC10.title, data := dC7 } ∧
    (show_data sC10 0 dC7).state.bkg = some B10 ∧
    (show_data sC10 0 dC7).emitted = [] := by
  have h := C10_subtraction_only_on_display_copy sC10 0 dC7 B10 rfl rfl rfl rfl rfl rfl
  exact ⟨h.1, h.2.1, h.2.2.1, h.2.2.2.1⟩

end DAQ_Viewer

namespace DAQ_Detector

/-- The behaviour of a dynamically loaded detector plugin, as consumed by
`DAQ_Detector.ini_detector`: constructing the plugin object
(`class_(self, params_state)`, together with the preceding
`get_viewer_plugins` lookup) may raise; the constructed object's own
`ini_detector` may raise or return an `(info, initialized)` pair, and
afterwards its `controller` attribute is read.  The controller handle is
opaque and modelled as a natural number.  (Plugins may alternatively return
an `edict`; that branch merges the same fields and does not change the
failure paths this model covers.) -/
structure DriverObj where
  iniResult : Except String (String × Bool)
  controller : Option ℕ
  hardware_averaging : Bool
  deriving Repr

/-- One plugin-loading scenario: the outcome of driver construction. -/
structure DriverSpec where
  construct : Except String DriverObj
  deriving Repr

/-- The `edict` status built by `DAQ_Detector.ini_detector`.  The initial
value is `edict(initialized=False, info="", x_axis=None, y_axis=None)` —
it has *no* `controller` key; `controller = none` models that absent key,
`some none` models an explicitly null one. -/
structure IniStatus where
  initialized : Bool
  info : String
  controller : Option (Option ℕ)
  deriving Repr, DecidableEq

/-- `DAQ_Detector.ini_detector`: build the pristine status, construct the
plugin (outer `try`), run the driver's own `ini_detector` (inner `try`),
and return the status.  Driver-construction failure falls to the outer
`except`, which returns the pristine status unchanged (no `controller`
key); driver-init failure is caught by the inner `except`, which records
`(str(e), False)` and sets `controller` to `None`.  The function is total:
no exception ever propagates past this boundary. -/
def ini_detector (ds : DriverSpec) : IniStatus :=
  let status : IniStatus := { initialized := false, info := "", controller := none }
  match ds.construct with
  | Except.error _ => status
  | Except.ok det =>
    match det.iniResult with
    | Except.error e =>
      { status with initialized := false, info := e, controller := some none }
    | Except.ok (info, ok) =>
      { status with initialized := ok, info := info, controller := some det.controller }

/-- A plugin whose constructor raises. -/
def dsFail : DriverSpec := { construct := Except.error "constructor raised" }

/-- A plugin object whose own `ini_detector` raises. -/
def objIniFail : DriverObj :=
  { iniResult := Except.error "init failed", controller := none,
    hardware_averaging := false }

/-- A plugin whose construction succeeds but whose `ini_detector` raises. -/
def dsIniFail : DriverSpec := { construct := Except.ok objIniFail }

/-- **C9 counterexample.** The claim says any construction/init failure
makes `ini_detector` return `initialized = false` *and a null controller
handle*; when driver construction itself raises, the outer `except` returns
the pristine status, which has no `controller` key at all (`none`), not a
null-valued one (`some none`) — the key is only written on the inner
paths. -/
theorem C9_counterexample :
    (ini_detector dsFail).initialized = false ∧
    (ini_detector dsFail).controller ≠ some none :=
  ⟨rfl, by simp [ini_detector, dsFail]⟩

/-- **C9 amended.** `ini_detector` never lets a driver exception propagate
(it is a total function of the driver scenario), and on failure always
reports `initialized = false`; the controller field is `None` when the
driver's own initializer raises, but is *absent entirely* when driver
construction raises — in neither case does the status carry a live
handle. -/
theorem C9_ini_detector_failure (ds : DriverSpec) :
    ((∃ e, ds.construct = Except.error e) →
      (ini_detector ds).initialized = false ∧ (ini_detector ds).controller = none) ∧
    (∀ det e, ds.construct = Except.ok det → det.iniResult = Except.error e →
      (ini_detector ds).initialized = false ∧
      (ini_detector ds).controller = some none) := by
  constructor
  · rintro ⟨e, he⟩
    simp [ini_detector, he]
  · intro det e hc hi
    simp [ini_detector, hc, hi]

/-- Witness for the amended `C9` on both failure scenarios. -/
theorem C9_ini_detector_failure_witness :
    ((ini_detector dsFail).initialized = false ∧
      (ini_detector dsFail).controller = none) ∧
    ((ini_detector dsIniFail).initialized = false ∧
      (ini_detector dsIniFail).controller = some none) :=
  ⟨(C9_ini_detector_failure dsFail).1 ⟨"constructor raised", rfl⟩,
   (C9_ini_detector_failure dsIniFail).2 objIniFail "init failed" rfl rfl⟩

end DAQ_Detector

end DaqViewer
